import Mathlib

/-!
# Verification of `salamanca.ineq`

A shallow embedding of `salamanca/ineq.py` in Lean 4, together with theorems
settling the specification's claims about it.

The module uses `scipy.special.erf` / `erfinv` and the normal and log-normal
distribution functions from `scipy.stats` as a trusted special-function
library.  We model them over the reals: `erf` by its standard integral
definition and `erfinv` as its (classical) inverse function, which is exactly
the mathematical contract scipy's numerical routines approximate.
-/

open MeasureTheory intervalIntegral Set Filter

noncomputable section

/-! ## Special-function adapter (trusted external collaborators) -/

/-- The Gauss error function, `erf x = 2/√π · ∫ t in 0..x, exp (-t²)`.
Model of `scipy.special.erf`. -/
def erf (x : ℝ) : ℝ := 2 / Real.sqrt Real.pi * ∫ t in (0:ℝ)..x, Real.exp (-t ^ 2)

/-- The inverse error function, model of `scipy.special.erfinv`.  Outside the
range `(-1, 1)` of `erf`, scipy returns `nan`; the classical inverse likewise
returns an unspecified junk value there. -/
def erfinv : ℝ → ℝ := Function.invFun erf

/-! ## Scalar conversion functions (`salamanca/ineq.py`, module level) -/

/-- `MAX_THEIL = 6.64`: empirical limit, corresponds to gini = 0.99. -/
def MAX_THEIL : ℝ := 6.64

/-- `gini_to_std(g) = 2.0 * erfinv(g)`. -/
def gini_to_std (g : ℝ) : ℝ := 2.0 * erfinv g

/-- `std_to_gini(s) = erf(0.5 * s)`. -/
def std_to_gini (s : ℝ) : ℝ := erf (0.5 * s)

/-- `theil_to_std(t) = (2 * t) ** 0.5`. -/
def theil_to_std (t : ℝ) : ℝ := Real.sqrt (2 * t)

/-- `std_to_theil(s) = s ** 2 / 2.0`. -/
def std_to_theil (s : ℝ) : ℝ := s ^ 2 / 2.0

/-- `theil_empirical_constants() = (0.216, 0.991, 0.003)`, Narasimha's quadratic
constants translating between decile-computed and gini-computed Theil values. -/
def theil_empirical_constants : ℝ × ℝ × ℝ := (0.216, 0.991, 0.003)

/-- The Theil value computed by `gini_to_theil` from a gini `g` (the straight-line
code between the two domain checks): `s = gini_to_std(g); t = std_to_theil(s)`,
then in empirical mode the quadratic-formula root finding
`t = (-b + (b² - 4a(c - t)) ** 0.5) / (2a)`. -/
def giniTheilRaw (g : ℝ) (empirical : Bool) : ℝ :=
  let s := gini_to_std g
  let t := std_to_theil s
  if empirical then
    let a := theil_empirical_constants.1
    let b := theil_empirical_constants.2.1
    let c := theil_empirical_constants.2.2
    (-b + Real.sqrt (b ^ 2 - 4 * a * (c - t))) / (2 * a)
  else t

/-- `gini_to_theil(g, empirical=False)`.  Raises (models as `Except.error`)
`ValueError('Gini not within (0, 1)')` unless `g > 0 and g < 1`, and
`ValueError('Theil not within (0, 2.88)')` unless the derived Theil satisfies
`t < MAX_THEIL and t > 0` (the message's literal `2.88` is stale: the bound
actually checked is `MAX_THEIL = 6.64`). -/
def gini_to_theil (g : ℝ) (empirical : Bool := false) : Except String ℝ :=
  if ¬ (g > 0 ∧ g < 1) then .error "Gini not within (0, 1)"
  else if ¬ (giniTheilRaw g empirical < MAX_THEIL ∧ giniTheilRaw g empirical > 0) then
    .error "Theil not within (0, 2.88)"
  else .ok (giniTheilRaw g empirical)

/-- The gini value computed by `theil_to_gini` from a theil `t` (the straight-line
code between the two domain checks): in empirical mode first the forward quadratic
`t = a t² + b t + c`, then `s = theil_to_std(t); g = std_to_gini(s)`. -/
def theilGiniRaw (t : ℝ) (empirical : Bool) : ℝ :=
  let t1 :=
    if empirical then
      let a := theil_empirical_constants.1
      let b := theil_empirical_constants.2.1
      let c := theil_empirical_constants.2.2
      a * t ^ 2 + b * t + c
    else t
  let s := theil_to_std t1
  std_to_gini s

/-- `theil_to_gini(t, empirical=False)`.  Raises (models as `Except.error`)
`ValueError('Theil not within (0, 2.88)')` unless `t < MAX_THEIL and t > 0`
(bound actually checked is `MAX_THEIL = 6.64`), and
`ValueError('Gini not within (0, 1)')` unless the derived gini satisfies
`g > 0 and g < 1`. -/
def theil_to_gini (t : ℝ) (empirical : Bool := false) : Except String ℝ :=
  if ¬ (t < MAX_THEIL ∧ t > 0) then .error "Theil not within (0, 2.88)"
  else if ¬ (theilGiniRaw t empirical > 0 ∧ theilGiniRaw t empirical < 1) then
    .error "Gini not within (0, 1)"
  else .ok (theilGiniRaw t empirical)

/-- Elementwise `gini_to_theil` on array input: the `np.all` domain checks fail
if any element violates the bound, otherwise the conversion maps elementwise. -/
def gini_to_theil_array (g : List ℝ) (empirical : Bool := false) : Except String (List ℝ) :=
  if ¬ (∀ x ∈ g, x > 0 ∧ x < 1) then .error "Gini not within (0, 1)"
  else if ¬ (∀ x ∈ g, giniTheilRaw x empirical < MAX_THEIL ∧ giniTheilRaw x empirical > 0) then
    .error "Theil not within (0, 2.88)"
  else .ok (g.map fun x => giniTheilRaw x empirical)

/-- Elementwise `theil_to_gini` on array input: the `np.all` domain checks fail
if any element violates the bound, otherwise the conversion maps elementwise. -/
def theil_to_gini_array (t : List ℝ) (empirical : Bool := false) : Except String (List ℝ) :=
  if ¬ (∀ x ∈ t, x < MAX_THEIL ∧ x > 0) then .error "Theil not within (0, 2.88)"
  else if ¬ (∀ x ∈ t, theilGiniRaw x empirical > 0 ∧ theilGiniRaw x empirical < 1) then
    .error "Gini not within (0, 1)"
  else .ok (t.map fun x => theilGiniRaw x empirical)

/-! ## Configuration object (`AttrObject` / `LogNormalData`) -/

/-- The attribute bag carried by `LogNormalData`: each field is `none` when the
Python attribute is `None` (or, equivalently for every observable use in this
module, not yet set). -/
structure LogNormalData where
  inc : Option ℝ
  mean : Option Bool
  gini : Option ℝ
  theil : Option ℝ

/-- A `**kwargs` dictionary for the four recognised fields.  The outer `Option`
records whether the keyword was supplied at all; the inner one is the supplied
value, which may itself be `None` (as in `add_defaults`, which passes
`gini=None, theil=None`). -/
structure Kwargs where
  inc : Option (Option ℝ) := none
  mean : Option (Option Bool) := none
  gini : Option (Option ℝ) := none
  theil : Option (Option ℝ) := none

/-- One step of `AttrObject.update`'s loop for a single attribute:
`if override or getattr(x, k, None) is None: setattr(x, k, v)`. -/
def updField {α : Type} (override : Bool) (cur : Option α) : Option (Option α) → Option α
  | none => cur
  | some v => if override || cur.isNone then v else cur

/-- The pure field-merging effect of `AttrObject.update(override=..., **kwargs)`
on the attribute values (the `copy` aliasing behaviour is modelled separately by
`update_op` on a heap). -/
def applyKwargs (override : Bool) (kw : Kwargs) (d : LogNormalData) : LogNormalData :=
  { inc := updField override d.inc kw.inc
    mean := updField override d.mean kw.mean
    gini := updField override d.gini kw.gini
    theil := updField override d.theil kw.theil }

/-- The defaults dictionary of `LogNormalData.add_defaults`:
`{'inc': 1, 'mean': True, 'gini': None, 'theil': None}`. -/
def defaultKwargs : Kwargs :=
  { inc := some (some 1), mean := some (some true), gini := some none, theil := some none }

/-- `LogNormalData.add_defaults`: `update(override=False, **defaults)`. -/
def add_defaults (d : LogNormalData) : LogNormalData := applyKwargs false defaultKwargs d

/-- `LogNormalData.check()`: models the `ValueError`s as `Except.error`.  The
source checks both-`None` first, then both-set, then `inc`, then `mean`, and
returns `self` on success. -/
def LogNormalData.check (d : LogNormalData) : Except String LogNormalData :=
  if d.theil.isNone && d.gini.isNone then .error "Must use either theil or gini"
  else if d.theil.isSome && d.gini.isSome then .error "Cannot use both theil and gini"
  else if d.inc.isNone then .error "Must declare value for inc"
  else if d.mean.isNone then .error "Must declare value for mean"
  else .ok d

/-! ## `LogNormal` distribution model -/

/-- `LogNormal.__init__(**kwargs)`: `init_data = LogNormalData(**kwargs)`, i.e.
`AttrObject.__init__` runs `update(copy=False, **kwargs)` on a fresh object with
all attributes unset. -/
def lognormalInit (kw : Kwargs) : LogNormalData :=
  applyKwargs true kw ⟨none, none, none, none⟩

/-- The call-scoped configuration assembled by `LogNormal.params(**kwargs)`:
`self.init_data.update(**kwargs).add_defaults(copy=True)` (both steps copy,
leaving `init_data` untouched; the resulting values are as below). -/
def mergedData (d0 : LogNormalData) (kw : Kwargs) : LogNormalData :=
  add_defaults (applyKwargs true kw d0)

/-- The `(shape, scale)` derivation of `LogNormal.params` on a checked
configuration:
`shape = gini_to_std(data.gini) if data.theil is None else theil_to_std(data.theil)`;
`scale = np.exp(np.log(data.inc) - shape ** 2 / 2) if data.mean else data.inc`.
The `.getD` defaults are never read on configurations that passed `check`. -/
def shapeScale (d : LogNormalData) : ℝ × ℝ :=
  let shape := if d.theil.isNone then gini_to_std (d.gini.getD 0) else theil_to_std (d.theil.getD 0)
  let scale := if d.mean.getD false then Real.exp (Real.log (d.inc.getD 0) - shape ^ 2 / 2)
    else d.inc.getD 0
  (shape, scale)

/-- `LogNormal.params(**kwargs)`: merge overrides onto the baseline, fill
defaults, `check()`, then derive `(shape, scale)`. -/
def params (d0 : LogNormalData) (kw : Kwargs) : Except String (ℝ × ℝ) :=
  ((mergedData d0 kw).check).map shapeScale

/-- `scipy.stats.norm.cdf` (standard normal CDF), expressed through `erf`. -/
def normCdf (x : ℝ) : ℝ := (1 + erf (x / Real.sqrt 2)) / 2

/-- An IEEE-style extended real: `scipy.stats.norm.ppf` returns `-inf` at 0 and
`inf` at 1, and those infinities then flow through float subtraction and
`norm.cdf`. -/
inductive XReal where
  | negInf : XReal
  | fin : ℝ → XReal
  | posInf : XReal

/-- Float subtraction of a finite real from an extended real. -/
def XReal.subR : XReal → ℝ → XReal
  | .negInf, _ => .negInf
  | .fin x, y => .fin (x - y)
  | .posInf, _ => .posInf

/-- `scipy.stats.norm.cdf` extended to IEEE infinities: `cdf(-inf) = 0`,
`cdf(inf) = 1`. -/
def normCdfX : XReal → ℝ
  | .negInf => 0
  | .fin x => normCdf x
  | .posInf => 1

/-- `scipy.stats.norm.ppf` (standard normal inverse CDF): `-inf` at 0, `inf`
at 1, the inverse of `normCdf` strictly inside `(0, 1)` (scipy returns `nan`
outside `[0, 1]`; the classical inverse likewise yields junk there). -/
def normPpf (x : ℝ) : XReal :=
  if x = 0 then .negInf else if x = 1 then .posInf else .fin (Function.invFun normCdf x)

/-- `scipy.stats.lognorm.cdf(x, shape, scale=scale)`: zero at or below the
support boundary `x = 0`, else the normal CDF of `log(x/scale)/shape`. -/
def lognormCdf (x shape scale : ℝ) : ℝ :=
  if x ≤ 0 then 0 else normCdf (Real.log (x / scale) / shape)

/-- `LogNormal.ppf(x, **kwargs)` — defined in the source with the CDF formula. -/
def LogNormal.ppf (d0 : LogNormalData) (kw : Kwargs) (x : ℝ) : Except String ℝ :=
  (params d0 kw).map fun p => lognormCdf x p.1 p.2

/-- `LogNormal.cdf(x, **kwargs)`. -/
def LogNormal.cdf (d0 : LogNormalData) (kw : Kwargs) (x : ℝ) : Except String ℝ :=
  (params d0 kw).map fun p => lognormCdf x p.1 p.2

/-- `LogNormal.lorenz(x, **kwargs) = norm.cdf(norm.ppf(x) - shape)`. -/
def LogNormal.lorenz (d0 : LogNormalData) (kw : Kwargs) (x : ℝ) : Except String ℝ :=
  (params d0 kw).map fun p => normCdfX ((normPpf x).subR p.1)

/-! ## Heap model for aliasing (`copy=True` vs `copy=False`)

Python objects live on a heap and are passed by reference; `deepcopy` allocates
an independent object.  We model the heap as a partial map from object ids to
`LogNormalData` values together with a fresh-id counter, so that the
copy-vs-in-place behaviour of `AttrObject.update` is observable. -/

structure Heap where
  objs : Nat → Option LogNormalData
  next : Nat

def Heap.get (h : Heap) (r : Nat) : Option LogNormalData := h.objs r

/-- `deepcopy`-style allocation of a fresh, independent object. -/
def Heap.alloc (h : Heap) (d : LogNormalData) : Heap × Nat :=
  (⟨fun i => if i = h.next then some d else h.objs i, h.next + 1⟩, h.next)

/-- In-place mutation of the object at `r`. -/
def Heap.set (h : Heap) (r : Nat) (d : LogNormalData) : Heap :=
  ⟨fun i => if i = r then some d else h.objs i, h.next⟩

/-- `AttrObject.update(copy=..., override=..., **kwargs)` on the object
referenced by `r`: `x = deepcopy(self) if copy else self`, then the `setattr`
loop, returning (the possibly new heap and) a reference to `x`.  A dangling
reference (impossible in Python) is modelled as a no-op. -/
def update_op (h : Heap) (r : Nat) (copy override : Bool) (kw : Kwargs) : Heap × Nat :=
  match h.get r with
  | none => (h, r)
  | some d =>
    if copy then h.alloc (applyKwargs override kw d)
    else (h.set r (applyKwargs override kw d), r)

/-- `LogNormal.params(**kwargs)` as a heap operation on the `init_data`
reference `r`: `self.init_data.update(**kwargs)` (copy=True default), then
`.add_defaults(copy=True)`, then `.check()`, then the pure `(shape, scale)`
derivation. -/
def params_op (h : Heap) (r : Nat) (kw : Kwargs) : Heap × Except String (ℝ × ℝ) :=
  let step1 := update_op h r true true kw
  let step2 := update_op step1.1 step1.2 true false defaultKwargs
  match step2.1.get step2.2 with
  | none => (step2.1, .error "dangling reference")
  | some d => (step2.1, d.check.map shapeScale)

/-- `scipy.stats.lognorm.mean(shape, scale=scale) = scale * exp(shape²/2)`. -/
def lognormMean (shape scale : ℝ) : ℝ := scale * Real.exp (shape ^ 2 / 2)

/-- `scipy.stats.lognorm.median(shape, scale=scale) = scale`. -/
def lognormMedian (_shape scale : ℝ) : ℝ := scale

/-- `scipy.stats.lognorm.var(shape, scale=scale)`. -/
def lognormVar (shape scale : ℝ) : ℝ :=
  (Real.exp (shape ^ 2) - 1) * scale ^ 2 * Real.exp (shape ^ 2)

/-- `scipy.stats.lognorm.std(shape, scale=scale)`. -/
def lognormStd (shape scale : ℝ) : ℝ := Real.sqrt (lognormVar shape scale)

/-- A `LogNormal` query method as a heap operation: every query calls
`self.params(**kwargs)` and post-processes the derived pair with a pure
adapter function `f` (the CDF at some point, a summary statistic, ...). -/
def query_op (f : ℝ × ℝ → ℝ) (h : Heap) (r : Nat) (kw : Kwargs) :
    Heap × Except String ℝ :=
  let res := params_op h r kw
  (res.1, res.2.map f)

/-! ## Sample objects used by witness theorems -/

/-- A sample baseline configuration, `LogNormalData(inc=1)` with the other
fields unset. -/
def sampleData : LogNormalData := ⟨some 1, none, none, none⟩

/-- A one-object heap holding `sampleData` at id 0. -/
def sampleHeap : Heap := ⟨fun i => if i = 0 then some sampleData else none, 1⟩

/-- Sample kwargs `gini=0.3`. -/
def sampleKw : Kwargs := { gini := some (some 0.3) }

/-- The baseline of `LogNormal(inc=100, mean=False, gini=0.4)`. -/
def sampleMedianCfg : LogNormalData :=
  lognormalInit { inc := some (some 100), mean := some (some false), gini := some (some 0.4) }

/-- A one-object heap holding `sampleMedianCfg` at id 0. -/
def sampleHeap2 : Heap := ⟨fun i => if i = 0 then some sampleMedianCfg else none, 1⟩

end

/-! ## Analysis of the error function -/

lemma integrable_gaussKernel : MeasureTheory.Integrable (fun t : ℝ => Real.exp (-t ^ 2)) := by
  have h := integrable_exp_neg_mul_sq (b := 1) one_pos
  simpa using h

lemma continuous_gaussKernel : Continuous (fun t : ℝ => Real.exp (-t ^ 2)) := by
  continuity

lemma erf_zero : erf 0 = 0 := by
  simp [erf]

lemma continuous_erf : Continuous erf :=
  continuous_const.mul (integrable_gaussKernel.continuous_primitive 0)

lemma erf_strictMono : StrictMono erf := by
  intro x y hxy
  have hint : ∀ a b : ℝ, IntervalIntegrable (fun t : ℝ => Real.exp (-t ^ 2)) volume a b :=
    fun a b => integrable_gaussKernel.intervalIntegrable
  have hsplit :
      (∫ t in (0:ℝ)..x, Real.exp (-t ^ 2)) + ∫ t in x..y, Real.exp (-t ^ 2)
        = ∫ t in (0:ℝ)..y, Real.exp (-t ^ 2) :=
    integral_add_adjacent_intervals (hint 0 x) (hint x y)
  have hpos : 0 < ∫ t in x..y, Real.exp (-t ^ 2) := by
    apply intervalIntegral.integral_pos hxy
    · exact continuous_gaussKernel.continuousOn
    · intro t _; positivity
    · exact ⟨x, ⟨le_refl x, le_of_lt hxy⟩, by positivity⟩
  have hcoef : 0 < 2 / Real.sqrt Real.pi := by positivity
  unfold erf
  rw [← hsplit, mul_add]
  nlinarith [mul_pos hcoef hpos]

lemma erf_tendsto_one : Tendsto erf atTop (nhds 1) := by
  have hio : ∫ t in Ioi (0:ℝ), Real.exp (-t ^ 2) = Real.sqrt Real.pi / 2 := by
    have h := integral_gaussian_Ioi 1
    simpa using h
  have hlim : Tendsto (fun x : ℝ => ∫ t in (0:ℝ)..x, Real.exp (-t ^ 2)) atTop
      (nhds (∫ t in Ioi (0:ℝ), Real.exp (-t ^ 2))) :=
    intervalIntegral_tendsto_integral_Ioi 0 integrable_gaussKernel.integrableOn tendsto_id
  have := hlim.const_mul (2 / Real.sqrt Real.pi)
  rw [hio] at this
  have hval : 2 / Real.sqrt Real.pi * (Real.sqrt Real.pi / 2) = 1 := by
    field_simp
  simpa [erf, hval] using this

lemma erf_lt_one (x : ℝ) : erf x < 1 := by
  have h1 : erf x < erf (x + 1) := erf_strictMono (by linarith)
  have h2 : erf (x + 1) ≤ 1 := erf_strictMono.monotone.ge_of_tendsto erf_tendsto_one (x + 1)
  linarith

lemma erf_pos {x : ℝ} (hx : 0 < x) : 0 < erf x := by
  have := erf_strictMono hx
  rwa [erf_zero] at this

/-- Every `g ∈ (0,1)` is attained by `erf` at a positive point. -/
lemma exists_erf_eq {g : ℝ} (h0 : 0 < g) (h1 : g < 1) : ∃ x : ℝ, 0 < x ∧ erf x = g := by
  obtain ⟨x₀, hx₀⟩ : ∃ x₀ : ℝ, g < erf x₀ :=
    (erf_tendsto_one.eventually (eventually_gt_nhds h1)).exists
  have hx₀pos : (0:ℝ) ≤ x₀ := by
    by_contra hneg
    push_neg at hneg
    have : erf x₀ < erf 0 := erf_strictMono hneg
    rw [erf_zero] at this
    linarith
  have hsub : Icc (erf 0) (erf x₀) ⊆ erf '' Icc 0 x₀ :=
    intermediate_value_Icc hx₀pos continuous_erf.continuousOn
  have hg : g ∈ Icc (erf 0) (erf x₀) := by
    rw [erf_zero]
    exact ⟨le_of_lt h0, le_of_lt hx₀⟩
  obtain ⟨x, hx, hfx⟩ := hsub hg
  refine ⟨x, ?_, hfx⟩
  rcases lt_or_eq_of_le hx.1 with hlt | heq
  · exact hlt
  · exfalso
    rw [← heq, erf_zero] at hfx
    linarith

lemma erfinv_erf (x : ℝ) : erfinv (erf x) = x :=
  Function.leftInverse_invFun erf_strictMono.injective x

lemma erf_erfinv {g : ℝ} (h0 : 0 < g) (h1 : g < 1) : erf (erfinv g) = g := by
  obtain ⟨x, _, hx⟩ := exists_erf_eq h0 h1
  exact Function.invFun_eq ⟨x, hx⟩

lemma erfinv_pos {g : ℝ} (h0 : 0 < g) (h1 : g < 1) : 0 < erfinv g := by
  obtain ⟨x, hxpos, hx⟩ := exists_erf_eq h0 h1
  have : erfinv g = x := by rw [← hx, erfinv_erf]
  rw [this]
  exact hxpos

/-! ## Helper lemmas about the conversions -/

lemma std_to_theil_gini_to_std (g : ℝ) : std_to_theil (gini_to_std g) = 2 * erfinv g ^ 2 := by
  simp only [std_to_theil, gini_to_std]
  ring

lemma giniTheilRaw_false (g : ℝ) : giniTheilRaw g false = 2 * erfinv g ^ 2 := by
  simp only [giniTheilRaw, if_neg, Bool.false_eq_true, if_false]
  exact std_to_theil_gini_to_std g

lemma giniTheilRaw_true (g : ℝ) :
    giniTheilRaw g true =
      (-(0.991:ℝ) + Real.sqrt ((0.991:ℝ) ^ 2 - 4 * 0.216 * (0.003 - 2 * erfinv g ^ 2)))
        / (2 * 0.216) := by
  simp only [giniTheilRaw, if_true, theil_empirical_constants, std_to_theil_gini_to_std]

lemma theilGiniRaw_false (t : ℝ) :
    theilGiniRaw t false = std_to_gini (theil_to_std t) := by
  simp only [theilGiniRaw, Bool.false_eq_true, if_false]

lemma theilGiniRaw_true (t : ℝ) :
    theilGiniRaw t true =
      std_to_gini (theil_to_std ((0.216:ℝ) * t ^ 2 + 0.991 * t + 0.003)) := by
  simp only [theilGiniRaw, if_true, theil_empirical_constants]

/-- The quadratic-formula root taken by `gini_to_theil(empirical=True)` really
is a root of `a y² + b y + (c - t₀)` whenever `t₀ > 0` (the discriminant is
then positive). -/
lemma quad_root_forward {u : ℝ} (hu : 0 < u) :
    (0.216:ℝ) * ((-(0.991:ℝ) + Real.sqrt ((0.991:ℝ) ^ 2 - 4 * 0.216 * (0.003 - u)))
        / (2 * 0.216)) ^ 2
      + 0.991 * ((-(0.991:ℝ) + Real.sqrt ((0.991:ℝ) ^ 2 - 4 * 0.216 * (0.003 - u)))
        / (2 * 0.216)) + 0.003 = u := by
  have hD : (0:ℝ) ≤ (0.991:ℝ) ^ 2 - 4 * 0.216 * (0.003 - u) := by nlinarith
  have hs := Real.sq_sqrt hD
  field_simp
  nlinarith [hs]

/-- Applying the forward quadratic and then the root finding recovers the
input: the discriminant collapses to the perfect square `(2at + b)²`. -/
lemma quad_root_backward {t : ℝ} (ht : 0 < t) :
    (-(0.991:ℝ) + Real.sqrt ((0.991:ℝ) ^ 2
        - 4 * 0.216 * (0.003 - ((0.216:ℝ) * t ^ 2 + 0.991 * t + 0.003)))) / (2 * 0.216) = t := by
  have harg : (0.991:ℝ) ^ 2 - 4 * 0.216 * (0.003 - ((0.216:ℝ) * t ^ 2 + 0.991 * t + 0.003))
      = (2 * 0.216 * t + 0.991) ^ 2 := by ring
  rw [harg, Real.sqrt_sq (by nlinarith)]
  ring

lemma sqrt_two_mul_sq {u : ℝ} (hu : 0 ≤ u) : Real.sqrt (2 * (2 * u ^ 2)) = 2 * u := by
  rw [show (2:ℝ) * (2 * u ^ 2) = (2 * u) ^ 2 by ring, Real.sqrt_sq (by linarith)]

/-- Converting the "theoretical" Theil `2·erfinv(g)²` back through std recovers
the gini. -/
lemma std_round_g {g : ℝ} (h0 : 0 < g) (h1 : g < 1) :
    std_to_gini (theil_to_std (2 * erfinv g ^ 2)) = g := by
  rw [theil_to_std, sqrt_two_mul_sq (le_of_lt (erfinv_pos h0 h1)), std_to_gini,
    show (0.5:ℝ) * (2 * erfinv g) = erfinv g by ring]
  exact erf_erfinv h0 h1

/-- Converting a positive Theil to gini and back through std recovers it. -/
lemma std_round_t {t1 : ℝ} (ht1 : 0 < t1) :
    std_to_theil (gini_to_std (std_to_gini (theil_to_std t1))) = t1 := by
  rw [std_to_gini, gini_to_std, show (2.0:ℝ) * erfinv (erf (0.5 * theil_to_std t1))
      = 2.0 * (0.5 * theil_to_std t1) by rw [erfinv_erf], theil_to_std, std_to_theil,
    show (2.0:ℝ) * (0.5 * Real.sqrt (2 * t1)) = Real.sqrt (2 * t1) by ring,
    Real.sq_sqrt (by linarith)]
  ring

/-- The gini produced by `theil_to_gini` from any positive Theil lies in
`(0, 1)`, in both empirical modes. -/
lemma theilGiniRaw_mem {t : ℝ} (E : Bool) (ht : 0 < t) :
    0 < theilGiniRaw t E ∧ theilGiniRaw t E < 1 := by
  cases E
  · rw [theilGiniRaw_false, std_to_gini]
    constructor
    · apply erf_pos
      have : 0 < Real.sqrt (2 * t) := Real.sqrt_pos.mpr (by linarith)
      rw [theil_to_std]
      linarith
    · exact erf_lt_one _
  · rw [theilGiniRaw_true, std_to_gini]
    constructor
    · apply erf_pos
      have : 0 < Real.sqrt (2 * ((0.216:ℝ) * t ^ 2 + 0.991 * t + 0.003)) :=
        Real.sqrt_pos.mpr (by nlinarith)
      rw [theil_to_std]
      linarith
    · exact erf_lt_one _

/-- Composing the raw conversions gini → theil → gini recovers the gini. -/
lemma theilGiniRaw_giniTheilRaw {g : ℝ} (E : Bool) (h0 : 0 < g) (h1 : g < 1) :
    theilGiniRaw (giniTheilRaw g E) E = g := by
  have hu : 0 < erfinv g := erfinv_pos h0 h1
  cases E
  · rw [giniTheilRaw_false, theilGiniRaw_false]
    exact std_round_g h0 h1
  · rw [giniTheilRaw_true, theilGiniRaw_true,
      quad_root_forward (u := 2 * erfinv g ^ 2) (by positivity)]
    exact std_round_g h0 h1

/-! ## Helper lemmas about the configuration object -/

lemma add_defaults_inc_isSome (d : LogNormalData) : (add_defaults d).inc.isSome := by
  cases h : d.inc <;> simp [add_defaults, applyKwargs, defaultKwargs, updField, h]

lemma add_defaults_mean_isSome (d : LogNormalData) : (add_defaults d).mean.isSome := by
  cases h : d.mean <;> simp [add_defaults, applyKwargs, defaultKwargs, updField, h]

lemma add_defaults_gini (d : LogNormalData) : (add_defaults d).gini = d.gini := by
  cases h : d.gini <;> simp [add_defaults, applyKwargs, defaultKwargs, updField, h]

lemma add_defaults_theil (d : LogNormalData) : (add_defaults d).theil = d.theil := by
  cases h : d.theil <;> simp [add_defaults, applyKwargs, defaultKwargs, updField, h]

lemma check_ok_of {d : LogNormalData}
    (hgt : (d.gini.isSome ∧ d.theil.isNone) ∨ (d.gini.isNone ∧ d.theil.isSome))
    (hi : d.inc.isSome) (hm : d.mean.isSome) : d.check = .ok d := by
  obtain ⟨i, hiv⟩ := Option.isSome_iff_exists.mp hi
  obtain ⟨m, hmv⟩ := Option.isSome_iff_exists.mp hm
  rcases hgt with ⟨hg, ht⟩ | ⟨hg, ht⟩
  · obtain ⟨g, hgv⟩ := Option.isSome_iff_exists.mp hg
    rw [Option.isNone_iff_eq_none] at ht
    simp [LogNormalData.check, hgv, ht, hiv, hmv]
  · obtain ⟨t, htv⟩ := Option.isSome_iff_exists.mp ht
    rw [Option.isNone_iff_eq_none] at hg
    simp [LogNormalData.check, hg, htv, hiv, hmv]

/-! ## Claims -/

/-- C7.  `LogNormal.ppf` and `LogNormal.cdf` return exactly the same value on
every configuration, every overrides set and every `x`: the source defines
`ppf` with the log-normal CDF formula. -/
theorem claim_ppf_eq_cdf :
    ∀ (d0 : LogNormalData) (kw : Kwargs) (x : ℝ),
      LogNormal.ppf d0 kw x = LogNormal.cdf d0 kw x :=
  fun _ _ _ => rfl

/-- C9.  The elementary conversions round-trip exactly (in real arithmetic):
`std_to_gini (gini_to_std g) = g` on `(0, 1)` and
`std_to_theil (theil_to_std s) = s` for `s ≥ 0`. -/
theorem claim_elementary_roundtrip :
    (∀ g : ℝ, 0 < g → g < 1 → std_to_gini (gini_to_std g) = g) ∧
    (∀ s : ℝ, 0 ≤ s → std_to_theil (theil_to_std s) = s) := by
  constructor
  · intro g h0 h1
    rw [gini_to_std, std_to_gini, show (0.5:ℝ) * (2.0 * erfinv g) = erfinv g by ring]
    exact erf_erfinv h0 h1
  · intro s hs
    rw [theil_to_std, std_to_theil, Real.sq_sqrt (by linarith)]
    ring

/-- Witness for C9 at `g = 1/2` and `s = 3`. -/
theorem claim_elementary_roundtrip_witness :
    std_to_gini (gini_to_std (1 / 2)) = 1 / 2 ∧ std_to_theil (theil_to_std 3) = 3 :=
  ⟨claim_elementary_roundtrip.1 (1 / 2) (by norm_num) (by norm_num),
   claim_elementary_roundtrip.2 3 (by norm_num)⟩

/-- C4.  `check()` succeeds exactly when one of gini/theil is set and both
`inc` and `mean` are set; it fails with distinct messages for the both-missing
and both-present gini/theil cases and with `Must declare value for <field>`
for a missing `inc` or `mean`; `LogNormal(gini=0.3, theil=0.2)` and
`LogNormal()` each fail at the first `params()` query. -/
theorem claim_check_validation :
    (∀ d : LogNormalData,
      (∃ d', d.check = .ok d') ↔
        (((d.gini.isSome ∧ d.theil.isNone) ∨ (d.gini.isNone ∧ d.theil.isSome)) ∧
          d.inc.isSome ∧ d.mean.isSome)) ∧
    (∀ d : LogNormalData, d.gini = none → d.theil = none →
      d.check = .error "Must use either theil or gini") ∧
    (∀ (d : LogNormalData) (g t : ℝ), d.gini = some g → d.theil = some t →
      d.check = .error "Cannot use both theil and gini") ∧
    (∀ d : LogNormalData,
      ((d.gini.isSome ∧ d.theil.isNone) ∨ (d.gini.isNone ∧ d.theil.isSome)) →
      d.inc = none → d.check = .error "Must declare value for inc") ∧
    (∀ d : LogNormalData,
      ((d.gini.isSome ∧ d.theil.isNone) ∨ (d.gini.isNone ∧ d.theil.isSome)) →
      d.inc.isSome → d.mean = none → d.check = .error "Must declare value for mean") ∧
    params (lognormalInit { gini := some (some 0.3), theil := some (some 0.2) }) {} =
      .error "Cannot use both theil and gini" ∧
    params (lognormalInit {}) {} = .error "Must use either theil or gini" := by
  refine ⟨?_, ?_, ?_, ?_, ?_, ?_, ?_⟩
  · rintro ⟨i, m, g, t⟩
    cases i <;> cases m <;> cases g <;> cases t <;> simp [LogNormalData.check]
  · intro d hg ht
    simp [LogNormalData.check, hg, ht]
  · intro d g t hg ht
    simp [LogNormalData.check, hg, ht]
  · rintro d (⟨hg, ht⟩ | ⟨hg, ht⟩) hi
    · obtain ⟨g, hgv⟩ := Option.isSome_iff_exists.mp hg
      rw [Option.isNone_iff_eq_none] at ht
      simp [LogNormalData.check, hgv, ht, hi]
    · obtain ⟨t, htv⟩ := Option.isSome_iff_exists.mp ht
      rw [Option.isNone_iff_eq_none] at hg
      simp [LogNormalData.check, hg, htv, hi]
  · rintro d (⟨hg, ht⟩ | ⟨hg, ht⟩) hi hm
    · obtain ⟨g, hgv⟩ := Option.isSome_iff_exists.mp hg
      obtain ⟨i, hiv⟩ := Option.isSome_iff_exists.mp hi
      rw [Option.isNone_iff_eq_none] at ht
      simp [LogNormalData.check, hgv, ht, hiv, hm]
    · obtain ⟨t, htv⟩ := Option.isSome_iff_exists.mp ht
      obtain ⟨i, hiv⟩ := Option.isSome_iff_exists.mp hi
      rw [Option.isNone_iff_eq_none] at hg
      simp [LogNormalData.check, hg, htv, hiv, hm]
  · rfl
  · rfl

/-- Witness for C4: a configuration with neither measure set fails `check`
with the both-missing message. -/
theorem claim_check_validation_witness :
    LogNormalData.check ⟨some 1, some true, none, none⟩ =
      .error "Must use either theil or gini" :=
  claim_check_validation.2.1 ⟨some 1, some true, none, none⟩ rfl rfl

/-- C1.  On every configuration accepted by `check()`, `params(**overrides)`
returns `shape = gini_to_std(gini)` (resp. `theil_to_std(theil)`) for the
supplied measure, and `scale = inc` when `mean` is false, else
`scale = exp(log(inc) - shape²/2)`. -/
theorem claim_params_shape_scale :
    ∀ (d0 : LogNormalData) (kw : Kwargs) (i : ℝ) (m : Bool),
      (mergedData d0 kw).inc = some i → (mergedData d0 kw).mean = some m →
      (∀ g : ℝ, (mergedData d0 kw).gini = some g → (mergedData d0 kw).theil = none →
        params d0 kw = .ok (gini_to_std g,
          if m then Real.exp (Real.log i - gini_to_std g ^ 2 / 2) else i)) ∧
      (∀ t : ℝ, (mergedData d0 kw).gini = none → (mergedData d0 kw).theil = some t →
        params d0 kw = .ok (theil_to_std t,
          if m then Real.exp (Real.log i - theil_to_std t ^ 2 / 2) else i)) := by
  intro d0 kw i m hi hm
  constructor
  · intro g hg ht
    have hcheck : (mergedData d0 kw).check = .ok (mergedData d0 kw) :=
      check_ok_of (Or.inl ⟨by simp [hg], by simp [ht]⟩) (by simp [hi]) (by simp [hm])
    rw [params, hcheck]
    simp [Except.map, shapeScale, hg, ht, hi, hm]
  · intro t hg ht
    have hcheck : (mergedData d0 kw).check = .ok (mergedData d0 kw) :=
      check_ok_of (Or.inr ⟨by simp [hg], by simp [ht]⟩) (by simp [hi]) (by simp [hm])
    rw [params, hcheck]
    simp [Except.map, shapeScale, hg, ht, hi, hm]

/-- Witness for C1: `LogNormal(inc=100, mean=False, gini=0.4).params()` is
`(gini_to_std(0.4), 100)` — the median case applies no adjustment. -/
theorem claim_params_shape_scale_witness :
    params sampleMedianCfg {} = .ok (gini_to_std 0.4, 100) := by
  have h := (claim_params_shape_scale sampleMedianCfg {} 100 false rfl rfl).1 0.4 rfl rfl
  simpa using h

/-- C10.  The `LogNormal` model performs no domain validation on the value of
the supplied inequality measure: whenever exactly one of gini/theil is set in
the merged configuration (to any real value), `check()` succeeds and
`params()` returns `.ok`. -/
theorem claim_no_domain_validation :
    ∀ (d0 : LogNormalData) (kw : Kwargs),
      (((mergedData d0 kw).gini.isSome ∧ (mergedData d0 kw).theil.isNone) ∨
        ((mergedData d0 kw).gini.isNone ∧ (mergedData d0 kw).theil.isSome)) →
      (mergedData d0 kw).check = .ok (mergedData d0 kw) ∧
        ∃ p : ℝ × ℝ, params d0 kw = .ok p := by
  intro d0 kw hgt
  have hcheck : (mergedData d0 kw).check = .ok (mergedData d0 kw) :=
    check_ok_of hgt (add_defaults_inc_isSome _) (add_defaults_mean_isSome _)
  refine ⟨hcheck, ⟨shapeScale (mergedData d0 kw), ?_⟩⟩
  rw [params, hcheck]
  rfl

/-- Witness for C10: `LogNormal(gini=1.5).params()` succeeds even though the
gini value 1.5 is far outside `(0, 1)`. -/
theorem claim_no_domain_validation_witness :
    ∃ p : ℝ × ℝ, params (lognormalInit { gini := some (some 1.5) }) {} = .ok p :=
  (claim_no_domain_validation (lognormalInit { gini := some (some 1.5) }) {}
    (Or.inl ⟨rfl, rfl⟩)).2

/-- C8.  `lorenz(x, **overrides)` is `normal_cdf(normal_inverse_cdf(x) - shape)`
at the derived shape, and satisfies the Lorenz boundary conditions
`lorenz(0) = 0` and `lorenz(1) = 1` on every valid configuration. -/
theorem claim_lorenz :
    (∀ (d0 : LogNormalData) (kw : Kwargs) (x : ℝ) (p : ℝ × ℝ),
      params d0 kw = .ok p →
      LogNormal.lorenz d0 kw x = .ok (normCdfX ((normPpf x).subR p.1))) ∧
    (∀ (d0 : LogNormalData) (kw : Kwargs) (p : ℝ × ℝ),
      params d0 kw = .ok p →
      LogNormal.lorenz d0 kw 0 = .ok 0 ∧ LogNormal.lorenz d0 kw 1 = .ok 1) := by
  constructor
  · intro d0 kw x p hp
    rw [LogNormal.lorenz, hp]
    rfl
  · intro d0 kw p hp
    constructor
    · rw [LogNormal.lorenz, hp]
      simp [Except.map, normPpf, XReal.subR, normCdfX]
    · rw [LogNormal.lorenz, hp]
      simp [Except.map, normPpf, XReal.subR, normCdfX]

/-- Witness for C8 on the configuration `LogNormal(inc=100, mean=False,
gini=0.4)`: the Lorenz curve hits the boundary values. -/
theorem claim_lorenz_witness :
    LogNormal.lorenz sampleMedianCfg {} 0 = .ok 0 ∧
      LogNormal.lorenz sampleMedianCfg {} 1 = .ok 1 :=
  claim_lorenz.2 sampleMedianCfg {} (gini_to_std 0.4, 100) rfl

/-- C3.  Domain-error behaviour of the Gini↔Theil conversions: `gini_to_theil`
fails for every `g` outside the open interval `(0, 1)` and for every derived
Theil outside `(0, MAX_THEIL)`; `theil_to_gini` fails for every input `t`
outside `(0, MAX_THEIL)`; on elementwise array input the checks fail as soon
as one element violates its bound.  The Theil-side message literal emitted by
the code is `"Theil not within (0, 2.88)"` even though the enforced bound is
`MAX_THEIL = 6.64` (demonstrated at the failing input `t = 10`, which is
rejected although the message suggests the bound 2.88 — and `t = 5` is
accepted although the message would suggest otherwise). -/
theorem claim_domain_errors :
    (∀ (g : ℝ) (E : Bool), ¬ (g > 0 ∧ g < 1) →
      gini_to_theil g E = .error "Gini not within (0, 1)") ∧
    (∀ (g : ℝ) (E : Bool), (0 < g ∧ g < 1) →
      ¬ (giniTheilRaw g E < MAX_THEIL ∧ giniTheilRaw g E > 0) →
      gini_to_theil g E = .error "Theil not within (0, 2.88)") ∧
    (∀ (t : ℝ) (E : Bool), ¬ (t < MAX_THEIL ∧ t > 0) →
      theil_to_gini t E = .error "Theil not within (0, 2.88)") ∧
    (∀ (gs : List ℝ) (E : Bool) (x : ℝ), x ∈ gs → ¬ (x > 0 ∧ x < 1) →
      gini_to_theil_array gs E = .error "Gini not within (0, 1)") ∧
    (∀ (ts : List ℝ) (E : Bool) (x : ℝ), x ∈ ts → ¬ (x < MAX_THEIL ∧ x > 0) →
      theil_to_gini_array ts E = .error "Theil not within (0, 2.88)") ∧
    theil_to_gini 10 false = .error "Theil not within (0, 2.88)" := by
  refine ⟨?_, ?_, ?_, ?_, ?_, ?_⟩
  · intro g E hg
    rw [gini_to_theil, if_pos hg]
  · intro g E hg ht
    rw [gini_to_theil, if_neg (not_not_intro ⟨hg.1, hg.2⟩), if_pos ht]
  · intro t E ht
    rw [theil_to_gini, if_pos ht]
  · intro gs E x hx hviol
    rw [gini_to_theil_array, if_pos]
    intro hall
    exact hviol (hall x hx)
  · intro ts E x hx hviol
    rw [theil_to_gini_array, if_pos]
    intro hall
    exact hviol (hall x hx)
  · rw [theil_to_gini, if_pos (by norm_num [MAX_THEIL])]

/-- Witness for C3 at the spec's listed inputs: `g ∈ {0, 1, 1.5, -0.1}` all
raise the Gini domain error, `t ∈ {0, 6.64, 10}` all raise the Theil domain
error, and a one-bad-element array fails the elementwise check. -/
theorem claim_domain_errors_witness :
    gini_to_theil 0 false = .error "Gini not within (0, 1)" ∧
    gini_to_theil 1 false = .error "Gini not within (0, 1)" ∧
    gini_to_theil 1.5 false = .error "Gini not within (0, 1)" ∧
    gini_to_theil (-0.1) false = .error "Gini not within (0, 1)" ∧
    theil_to_gini 0 false = .error "Theil not within (0, 2.88)" ∧
    theil_to_gini 6.64 false = .error "Theil not within (0, 2.88)" ∧
    theil_to_gini 10 false = .error "Theil not within (0, 2.88)" ∧
    gini_to_theil_array [0.4, 1.5] false = .error "Gini not within (0, 1)" :=
  ⟨claim_domain_errors.1 0 false (by norm_num),
   claim_domain_errors.1 1 false (by norm_num),
   claim_domain_errors.1 1.5 false (by norm_num),
   claim_domain_errors.1 (-0.1) false (by norm_num),
   claim_domain_errors.2.2.1 0 false (by norm_num),
   claim_domain_errors.2.2.1 6.64 false (by norm_num [MAX_THEIL]),
   claim_domain_errors.2.2.1 10 false (by norm_num [MAX_THEIL]),
   claim_domain_errors.2.2.2.1 [0.4, 1.5] false 1.5 (by norm_num) (by norm_num)⟩

/-- Composing the raw conversions theil → gini → theil recovers the theil. -/
lemma giniTheilRaw_theilGiniRaw {t : ℝ} (E : Bool) (ht : 0 < t) :
    giniTheilRaw (theilGiniRaw t E) E = t := by
  cases E
  · rw [theilGiniRaw_false, giniTheilRaw_false, ← std_to_theil_gini_to_std]
    exact std_round_t (by linarith)
  · have ht1 : (0:ℝ) < 0.216 * t ^ 2 + 0.991 * t + 0.003 := by nlinarith
    rw [theilGiniRaw_true, giniTheilRaw_true, ← std_to_theil_gini_to_std,
      std_round_t ht1]
    exact quad_root_backward ht

/-- C2.  The Gini↔Theil conversions round-trip exactly (in real arithmetic) in
both empirical modes: whenever `gini_to_theil g E` succeeds its output converts
back to `g`, and every valid Theil `t ∈ (0, MAX_THEIL)` converts to a gini that
converts back to `t`. -/
theorem claim_gini_theil_roundtrip :
    (∀ (g : ℝ) (E : Bool) (t : ℝ), 0 < g → g < 1 →
      gini_to_theil g E = .ok t → theil_to_gini t E = .ok g) ∧
    (∀ (t : ℝ) (E : Bool), 0 < t → t < MAX_THEIL →
      theil_to_gini t E = .ok (theilGiniRaw t E) ∧
        gini_to_theil (theilGiniRaw t E) E = .ok t) := by
  constructor
  · intro g E t h0 h1 hok
    rw [gini_to_theil, if_neg (not_not_intro ⟨h0, h1⟩)] at hok
    split_ifs at hok with hb
    have htv : giniTheilRaw g E = t := by simpa using hok
    subst htv
    rw [theil_to_gini, if_neg (not_not_intro ⟨hb.1, hb.2⟩),
      theilGiniRaw_giniTheilRaw E h0 h1, if_neg (not_not_intro ⟨h0, h1⟩)]
  · intro t E h0 h1
    have hmem := theilGiniRaw_mem E h0
    constructor
    · rw [theil_to_gini, if_neg (not_not_intro ⟨h1, h0⟩),
        if_neg (not_not_intro ⟨hmem.1, hmem.2⟩)]
    · rw [gini_to_theil, if_neg (not_not_intro ⟨hmem.1, hmem.2⟩),
        giniTheilRaw_theilGiniRaw E h0, if_neg (not_not_intro ⟨h1, h0⟩)]

/-- Witness for C2 at `t = 1` (both directions, non-empirical mode): `t = 1`
converts to the gini `theilGiniRaw 1 false ∈ (0,1)` and back to `.ok 1`, and
the forward direction applied to that gini returns to `.ok 1`'s preimage. -/
theorem claim_gini_theil_roundtrip_witness :
    0 < theilGiniRaw 1 false ∧ theilGiniRaw 1 false < 1 ∧
      gini_to_theil (theilGiniRaw 1 false) false = .ok 1 ∧
      theil_to_gini 1 false = .ok (theilGiniRaw 1 false) := by
  have hmem := theilGiniRaw_mem (t := 1) false (by norm_num)
  have hb := claim_gini_theil_roundtrip.2 1 false (by norm_num) (by norm_num [MAX_THEIL])
  exact ⟨hmem.1, hmem.2, hb.2,
    claim_gini_theil_roundtrip.1 (theilGiniRaw 1 false) false 1 hmem.1 hmem.2 hb.2⟩

/-- C5.  `AttrObject.update`: with `copy=True` the original object is left
untouched and an independent (fresh-id) copy with the fields applied is
returned; with `copy=False` the same object is mutated in place and returned;
with `override=False` a supplied field is applied only where the current value
is unset, leaving every already-set field untouched. -/
theorem claim_update_copy_semantics :
    ∀ (h : Heap) (r : Nat) (override : Bool) (kw : Kwargs) (d : LogNormalData),
      h.get r = some d → r < h.next →
      ((update_op h r true override kw).1.get r = some d ∧
        (∀ i, i < h.next → (update_op h r true override kw).1.objs i = h.objs i) ∧
        (update_op h r true override kw).2 ≠ r ∧
        (update_op h r true override kw).1.get (update_op h r true override kw).2 =
          some (applyKwargs override kw d)) ∧
      ((update_op h r false override kw).2 = r ∧
        (update_op h r false override kw).1.get r = some (applyKwargs override kw d) ∧
        ∀ i, i ≠ r → (update_op h r false override kw).1.objs i = h.objs i) ∧
      ((d.inc.isSome → (applyKwargs false kw d).inc = d.inc) ∧
        (d.mean.isSome → (applyKwargs false kw d).mean = d.mean) ∧
        (d.gini.isSome → (applyKwargs false kw d).gini = d.gini) ∧
        (d.theil.isSome → (applyKwargs false kw d).theil = d.theil) ∧
        (∀ v, d.inc = none → kw.inc = some v → (applyKwargs false kw d).inc = v) ∧
        (∀ v, d.mean = none → kw.mean = some v → (applyKwargs false kw d).mean = v) ∧
        (∀ v, d.gini = none → kw.gini = some v → (applyKwargs false kw d).gini = v) ∧
        (∀ v, d.theil = none → kw.theil = some v → (applyKwargs false kw d).theil = v)) := by
  intro h r override kw d hget hlt
  have hobjs : h.objs r = some d := hget
  have hr1 : r ≠ h.next := by omega
  refine ⟨⟨?_, ?_, ?_, ?_⟩, ⟨?_, ?_, ?_⟩, ?_, ?_, ?_, ?_, ?_, ?_, ?_, ?_⟩
  · simp [update_op, Heap.get, Heap.alloc, hobjs, hr1]
  · intro i hi
    have hi1 : i ≠ h.next := by omega
    simp [update_op, Heap.get, Heap.alloc, hobjs, hi1]
  · simp [update_op, Heap.get, Heap.alloc, hobjs]
    omega
  · simp [update_op, Heap.get, Heap.alloc, hobjs]
  · simp [update_op, Heap.get, Heap.set, hobjs]
  · simp [update_op, Heap.get, Heap.set, hobjs]
  · intro i hi
    simp [update_op, Heap.get, Heap.set, hobjs, hi]
  · intro hs
    cases hk : kw.inc <;> cases hd : d.inc <;> simp_all [applyKwargs, updField]
  · intro hs
    cases hk : kw.mean <;> cases hd : d.mean <;> simp_all [applyKwargs, updField]
  · intro hs
    cases hk : kw.gini <;> cases hd : d.gini <;> simp_all [applyKwargs, updField]
  · intro hs
    cases hk : kw.theil <;> cases hd : d.theil <;> simp_all [applyKwargs, updField]
  · intro v hd hk
    simp [applyKwargs, updField, hd, hk]
  · intro v hd hk
    simp [applyKwargs, updField, hd, hk]
  · intro v hd hk
    simp [applyKwargs, updField, hd, hk]
  · intro v hd hk
    simp [applyKwargs, updField, hd, hk]

/-- Witness for C5 on a one-object heap: the copying update leaves the object
at id 0 untouched, the in-place update mutates it and returns id 0, and with
`override=False` the already-set `inc` field is preserved. -/
theorem claim_update_copy_semantics_witness :
    (update_op sampleHeap 0 true false sampleKw).1.get 0 = some sampleData ∧
    (update_op sampleHeap 0 false false sampleKw).2 = 0 ∧
    (update_op sampleHeap 0 false false sampleKw).1.get 0 =
      some (applyKwargs false sampleKw sampleData) ∧
    (applyKwargs false sampleKw sampleData).inc = sampleData.inc := by
  have h := claim_update_copy_semantics sampleHeap 0 false sampleKw sampleData rfl (by decide)
  exact ⟨h.1.1, h.2.1.1, h.2.1.2.1, h.2.2.1 rfl⟩

/-- C6.  `params` (and through it every query method) never mutates the
baseline `init_data`: the heap operation leaves every pre-existing object —
in particular the baseline at `r` — unchanged, and its result is the pure
function `params` of the baseline value and the overrides, so repeated queries
are side-effect free and independently re-derivable. -/
theorem claim_params_no_mutation :
    ∀ (h : Heap) (r : Nat) (kw : Kwargs) (d : LogNormalData),
      h.get r = some d → r < h.next →
      ((params_op h r kw).1.get r = some d ∧
        (∀ i, i < h.next → (params_op h r kw).1.objs i = h.objs i) ∧
        (params_op h r kw).2 = params d kw) ∧
      (∀ f : ℝ × ℝ → ℝ,
        (query_op f h r kw).1.get r = some d ∧
        (∀ i, i < h.next → (query_op f h r kw).1.objs i = h.objs i) ∧
        (query_op f h r kw).2 = (params d kw).map f) := by
  intro h r kw d hget hlt
  have hobjs : h.objs r = some d := hget
  have hr1 : r ≠ h.next := by omega
  have hr2 : r ≠ h.next + 1 := by omega
  have hA : (params_op h r kw).1.get r = some d := by
    simp [params_op, update_op, Heap.get, Heap.alloc, hobjs, hr1, hr2]
  have hB : ∀ i, i < h.next → (params_op h r kw).1.objs i = h.objs i := by
    intro i hi
    have hi1 : i ≠ h.next := by omega
    have hi2 : i ≠ h.next + 1 := by omega
    simp [params_op, update_op, Heap.get, Heap.alloc, hobjs, hi1, hi2]
  have hC : (params_op h r kw).2 = params d kw := by
    simp [params_op, update_op, Heap.get, Heap.alloc, hobjs, params, mergedData, add_defaults]
  exact ⟨⟨hA, hB, hC⟩, fun f =>
    ⟨hA, hB, by rw [show (query_op f h r kw).2 = (params_op h r kw).2.map f from rfl, hC]⟩⟩

/-- Witness for C6 on a one-object heap holding the baseline of
`LogNormal(inc=100, mean=False, gini=0.4)`: after `params` the baseline is
unchanged and the result is the pure derivation. -/
theorem claim_params_no_mutation_witness :
    (params_op sampleHeap2 0 {}).1.get 0 = some sampleMedianCfg ∧
    (params_op sampleHeap2 0 {}).2 = params sampleMedianCfg {} := by
  have h := claim_params_no_mutation sampleHeap2 0 {} sampleMedianCfg rfl (by decide)
  exact ⟨h.1.1, h.1.2.2⟩
